import Mathlib

/-!
Verification of the haul trading backend.

This file gives a shallow embedding of the core algorithmic components of the
repository — the arbitrage matcher (`backend/src/arbitrage.py`), the route
optimizer (`backend/src/route.py`), the pathfinder net-profit stage
(`backend/src/pathfinder.py`) and the navigation graph's time/risk model and
route formatting (`backend/src/graph.py`) — and proves or refutes the stated
properties of the specification against it.

Python `float` arithmetic is embedded as exact rational arithmetic (`ℚ`),
except for the warp-time physics which uses `Real.log`/`Real.sqrt` and is
embedded over `ℝ`.  Python `int` is embedded as `ℤ`; `int(a // b)` on
non-negative-exponent values is `Int.floor` of the rational quotient.
Python dictionaries are embedded as association lists where insertion order
matters, and as lookup functions where it does not.
-/

namespace Haul

/-- `market.Order` (market.py).  The `issued` timestamp is embedded as an
integer; it plays no computational role. -/
structure Order where
  order_id : ℤ
  region_id : ℤ
  location_id : ℤ
  type_id : ℤ
  is_buy_order : Bool
  price : ℚ
  issued : ℤ
  volume_remain : ℤ
  item_name : String
  item_cargo_volume : ℚ
deriving DecidableEq

/-- `arbitrage.Trade` (arbitrage.py). -/
structure Trade where
  from_station : ℤ
  to_station : ℤ
  from_order_id : ℤ
  to_order_id : ℤ
  item_name : String
  type_id : ℤ
  item_cargo_volume : ℚ
  from_price : ℚ
  to_price : ℚ
  quantity : ℤ
  cargo : ℚ
  gross_profit : ℚ
  net_profit : Option ℚ := none
deriving DecidableEq

/-- `arbitrage.TAX_RATE`. -/
def TAX_RATE : ℚ := 8 / 100

/-- `arbitrage.PROFIT_THRESHOLD`. -/
def PROFIT_THRESHOLD : ℚ := 100000

/-- `arbitrage.MAX_CAPITAL` (also `route.MAX_CAPITAL`, same value). -/
def MAX_CAPITAL : ℚ := 100000000

/-- `arbitrage.SNIPE_PROFIT_THRESHOLD`. -/
def SNIPE_PROFIT_THRESHOLD : ℚ := 20000000

/-- `arbitrage.filter_orders_for_cargo`: drop zero-volume orders, cap
`volume_remain` at `int(cargo_space // item_cargo_volume)`, keep only strictly
positive capped volumes, emitting an updated copy of each surviving order. -/
def filter_orders_for_cargo : List Order → ℤ → List Order
  | [], _ => []
  | o :: rest, cargo_space =>
    if o.item_cargo_volume = 0 then filter_orders_for_cargo rest cargo_space
    else
      let max_quantity : ℤ := ⌊(cargo_space : ℚ) / o.item_cargo_volume⌋
      let volume_remain := min o.volume_remain max_quantity
      if 0 < volume_remain then
        { o with volume_remain := volume_remain } :: filter_orders_for_cargo rest cargo_space
      else filter_orders_for_cargo rest cargo_space

/-- `arbitrage.filter_orders_for_capital_risk`: drop zero-price orders, cap
`volume_remain` at `int(max_amount // price)`. -/
def filter_orders_for_capital_risk : List Order → ℚ → List Order
  | [], _ => []
  | o :: rest, max_amount =>
    if o.price = 0 then filter_orders_for_capital_risk rest max_amount
    else
      let max_quantity : ℤ := ⌊max_amount / o.price⌋
      let volume_remain := min o.volume_remain max_quantity
      if 0 < volume_remain then
        { o with volume_remain := volume_remain } :: filter_orders_for_capital_risk rest max_amount
      else filter_orders_for_capital_risk rest max_amount

/-- Body of the innermost loop of `arbitrage.create_trades`: the trade made
from one (sell, buy) pair, or `none` when the pair is skipped. -/
def try_match (s b : Order) : Option Trade :=
  let effective_buy_price := b.price * (1 - TAX_RATE)
  if effective_buy_price < s.price then none
  else
    let quantity := min s.volume_remain b.volume_remain
    let gross_profit := (quantity : ℚ) * (effective_buy_price - s.price)
    if gross_profit < PROFIT_THRESHOLD then none
    else some
      { from_station := s.location_id
        to_station := b.location_id
        from_order_id := s.order_id
        to_order_id := b.order_id
        item_name := s.item_name
        type_id := s.type_id
        item_cargo_volume := s.item_cargo_volume
        from_price := s.price
        to_price := b.price
        quantity := quantity
        cargo := (quantity : ℚ) * s.item_cargo_volume
        gross_profit := gross_profit
        net_profit := none }

/-- `arbitrage.create_trades`: every (sell, buy) pair sharing a `type_id` is
offered to `try_match`.  (The Python version groups both sides by `type_id`
and iterates the key-set intersection; the resulting trade *set* is the same,
only the enumeration order differs, which none of the verified properties
depend on.) -/
def create_trades (sell_orders buy_orders : List Order) : List Trade :=
  sell_orders.flatMap fun s =>
    (buy_orders.filter (fun b => b.type_id == s.type_id)).filterMap (try_match s)

/-- `arbitrage.arbitrage`: split by side, sort (sells ascending, buys
descending by price), apply the cargo filter then the capital filter to both
sides, and match. -/
def arbitrage (orders : List Order) (cargo_space : ℤ) : List Trade :=
  let sell_orders := List.mergeSort (orders.filter (fun o => !o.is_buy_order))
    (fun a b => decide (a.price ≤ b.price))
  let buy_orders := List.mergeSort (orders.filter (fun o => o.is_buy_order))
    (fun a b => decide (b.price ≤ a.price))
  let sell_orders := filter_orders_for_cargo sell_orders cargo_space
  let buy_orders := filter_orders_for_cargo buy_orders cargo_space
  let sell_orders := filter_orders_for_capital_risk sell_orders MAX_CAPITAL
  let buy_orders := filter_orders_for_capital_risk buy_orders MAX_CAPITAL
  create_trades sell_orders buy_orders

/-- The dict comprehension `{order.order_id: order.region_id for order in
orders}` of `arbitrage.snipe`: on duplicate ids the last occurrence wins. -/
def order_region (orders : List Order) (oid : ℤ) : Option ℤ :=
  (orders.reverse.find? (fun o => o.order_id == oid)).map (fun o => o.region_id)

/-- `arbitrage.snipe`: keep the trades whose *from* order's region is
`current_region`, sort by `gross_profit` descending, and return the head if
its profit strictly exceeds `SNIPE_PROFIT_THRESHOLD`. -/
def snipe (orders : List Order) (cargo_space : ℤ) (current_region : ℤ) : Option Trade :=
  let trades := arbitrage orders cargo_space
  let region_trades := trades.filter
    (fun t => decide (order_region orders t.from_order_id = some current_region))
  let sorted_trades := List.mergeSort region_trades
    (fun a b => decide (b.gross_profit ≤ a.gross_profit))
  match sorted_trades with
  | [] => none
  | t :: _ => if SNIPE_PROFIT_THRESHOLD < t.gross_profit then some t else none

/-- `pathfinder.Ship` (a dataclass; note it has *no* `ship_cost` field, so
`getattr(ship, 'ship_cost', 0.0)` in route.py always yields `0.0`). -/
structure Ship where
  location : ℤ
  cargo : ℤ
  max_warp_speed : ℚ
  max_subwarp_speed : ℚ
  gankers_areas : List String
  player_cost : ℚ
  risk_cost : ℚ
deriving DecidableEq

/-- An entry of `self.stations` in graph.py: a location node, either a real
station (`is_station`) or a gate/transit-only node. -/
structure StationData where
  solar_system_id : ℤ
  region_id : ℤ
  region_name : String
  item_name : String
  solar_system_name : String
  security : ℚ
  is_station : Bool
  px : ℚ
  py : ℚ
  pz : ℚ
deriving DecidableEq

/-- An entry of `self.solar_systems` in graph.py. -/
structure SystemData where
  region_id : ℤ
  region_name : String
  item_name : String
deriving DecidableEq

/-- The navigation graph as consumed by route.py and pathfinder.py:
`stations`/`solar_systems` are the lookup tables loaded from static data,
`shortest_path_fn` is the behaviour of `NavigationGraph.shortest_path`
(`none` models the `NetworkXNoPath` case), `edge_risk`/`edge_time` are the
per-edge attributes set by `_add_time_and_risk`, and `paths` is the
precomputed all-pairs distance table (a dict of dicts). -/
structure Graph where
  stations : ℤ → Option StationData
  solar_systems : ℤ → Option SystemData
  shortest_path_fn : ℤ → ℤ → Option (List ℤ)
  edge_risk : ℤ → ℤ → ℚ
  edge_time : ℤ → ℤ → ℚ
  paths : List (ℤ × List (ℤ × ℚ))

/-- One action dict appended by `route.set_actions`. -/
structure TradeAction where
  action_type : String
  item : String
  type_id : ℤ
  quantity : ℤ
  price : ℚ
deriving DecidableEq

/-- One step of a formatted route (`NavigationGraph._get_location_info`):
`station_id` is present exactly for station steps. -/
structure RouteStep where
  id : ℕ
  location_id : ℤ
  station_id : Option ℤ
  solar_system_id : ℤ
  location_type : String
  location : String
  actions : List TradeAction
deriving DecidableEq

/-- `route.MAX_TRADES_TO_CONSIDER`. -/
def MAX_TRADES_TO_CONSIDER : ℕ := 20000

/-- The sort key of `route.select_trades`:
`trade.gross_profit / trade.cargo if trade.cargo > 0 else 0`. -/
def select_key (t : Trade) : ℚ :=
  if 0 < t.cargo then t.gross_profit / t.cargo else 0

/-- The greedy accept loop of `route.select_trades` (lines 129-169):
state is the `used_orders` dict (an association list where the most recent
binding shadows older ones, matching dict assignment), cumulative `cargo`
and cumulative `capital`. -/
def select_trades_go (ship : Ship) :
    List Trade → List (ℤ × ℤ) → ℚ → ℚ → List Trade
  | [], _, _, _ => []
  | t :: rest, used_orders, cargo, capital =>
    let quantity := t.quantity
    let from_remaining := (used_orders.lookup t.from_order_id).getD quantity
    let to_remaining := (used_orders.lookup t.to_order_id).getD quantity
    let max_quantity_by_cargo : ℤ := ⌊((ship.cargo : ℚ) - cargo) / t.item_cargo_volume⌋
    let max_quantity_by_capital : ℤ := ⌊(MAX_CAPITAL - capital) / t.from_price⌋
    let max_quantity :=
      min quantity (min from_remaining (min to_remaining
        (min max_quantity_by_cargo max_quantity_by_capital)))
    if max_quantity ≤ 0 then select_trades_go ship rest used_orders cargo capital
    else
      let cargo' := cargo + t.item_cargo_volume * max_quantity
      let capital' := capital + t.from_price * max_quantity
      let used' : List (ℤ × ℤ) :=
        (t.to_order_id, to_remaining - max_quantity) ::
          (t.from_order_id, from_remaining - max_quantity) :: used_orders
      let updated_trade : Trade :=
        { t with quantity := max_quantity
                 cargo := t.item_cargo_volume * (max_quantity : ℚ)
                 gross_profit := (t.to_price - t.from_price) * (max_quantity : ℚ)
                 net_profit := none }
      updated_trade ::
        (if (ship.cargo : ℚ) ≤ cargo' ∨ MAX_CAPITAL ≤ capital' then []
         else select_trades_go ship rest used' cargo' capital')

/-- `route.select_trades`: keep the trades whose endpoints both lie in the
skeleton with the buy station strictly before the sell station, sort by
`gross_profit / cargo` descending (stable), then greedily accept. -/
def select_trades (stations : List ℤ) (trades : List Trade) (ship : Ship) : List Trade :=
  let filtered_trades := trades.filter fun t =>
    decide (t.from_station ∈ stations) && decide (t.to_station ∈ stations) &&
      decide (stations.indexOf t.from_station < stations.indexOf t.to_station)
  let sorted_trades := List.mergeSort filtered_trades
    (fun a b => decide (select_key b ≤ select_key a))
  select_trades_go ship sorted_trades [] 0 0

/-- `NavigationGraph._get_location_info`: a station id becomes a station
step, a solar-system id a system step, anything unknown is dropped. -/
def get_location_info (g : Graph) (location_id : ℤ) (index : ℕ) : Option RouteStep :=
  match g.stations location_id with
  | some st =>
    let sys_name := match g.solar_systems st.solar_system_id with
      | some sys => sys.item_name
      | none => ""
    some { id := index
           location_id := location_id
           station_id := some location_id
           solar_system_id := st.solar_system_id
           location_type := "station"
           location := st.region_name ++ " - " ++ sys_name ++ " - " ++ st.item_name
           actions := [] }
  | none =>
    match g.solar_systems location_id with
    | some sys =>
      some { id := index
             location_id := location_id
             station_id := none
             solar_system_id := location_id
             location_type := "system"
             location := sys.region_name ++ " - " ++ sys.item_name
             actions := [] }
    | none => none

/-- The body of the pair loop in `NavigationGraph._combine_warp_gates`: what
one adjacent pair `(current_id, next_id)` appends to `combined_path`. -/
def pair_contribution (g : Graph) (current_id next_id : ℤ) : List ℤ :=
  match g.stations current_id, g.stations next_id with
  | some cs, some ns =>
    if cs.is_station then [current_id]
    else if !ns.is_station && cs.solar_system_id == ns.solar_system_id then
      [cs.solar_system_id]
    else []
  | some cs, none => if cs.is_station then [current_id] else []
  | none, _ => []

/-- The pair loop of `_combine_warp_gates` (`for (current_id, next_id) in
zip(path, path[1:])`). -/
def combine_pairs (g : Graph) : List ℤ → List ℤ
  | c :: n :: rest => pair_contribution g c n ++ combine_pairs g (n :: rest)
  | _ => []

/-- `NavigationGraph._combine_warp_gates`.  (The Python code indexes
`path[-1]` and so requires a non-empty path, as do all properties stated
about it; the embedding totalises the empty case to `[]`.) -/
def combine_warp_gates (g : Graph) (path : List ℤ) : List ℤ :=
  combine_pairs g path ++
    (match path.getLast? with
     | some last_id =>
       match g.stations last_id with
       | some st => if st.is_station then [last_id] else []
       | none => []
     | none => [])

/-- `NavigationGraph.formatted_route`: combine warp gates, then enumerate and
resolve each id, dropping unknown ids. -/
def formatted_route (g : Graph) (path : List ℤ) : List RouteStep :=
  ((combine_warp_gates g path).enum).filterMap fun p => get_location_info g p.2 p.1

/-- The buy action dict built by `route.set_actions`. -/
def buy_action (t : Trade) : TradeAction :=
  { action_type := "buy", item := t.item_name, type_id := t.type_id
    quantity := t.quantity, price := t.from_price }

/-- The sell action dict built by `route.set_actions`. -/
def sell_action (t : Trade) : TradeAction :=
  { action_type := "sell", item := t.item_name, type_id := t.type_id
    quantity := t.quantity, price := t.to_price }

/-- The inner `for step in route` loop of `route.set_actions` for a single
trade, threading the `bought_items` set (membership list). -/
def apply_trade_to_steps (t : Trade) :
    List RouteStep → List ℤ → List RouteStep × List ℤ
  | [], bought => ([], bought)
  | step :: rest, bought =>
    let step1 :=
      if step.location_id == t.from_station then
        { step with actions := step.actions ++ [buy_action t] }
      else step
    let bought1 :=
      if step.location_id == t.from_station then bought.insert t.type_id else bought
    let step2 :=
      if step1.location_id == t.to_station && decide (t.type_id ∈ bought1) then
        { step1 with actions := step1.actions ++ [sell_action t] }
      else step1
    let (rest', bought') := apply_trade_to_steps t rest bought1
    (step2 :: rest', bought')

/-- Lexicographic comparison on `(action_type, item, price)`, the sort key of
`route.set_actions`. -/
def action_le (a b : TradeAction) : Bool :=
  if a.action_type ≠ b.action_type then decide (a.action_type < b.action_type)
  else if a.item ≠ b.item then decide (a.item < b.item)
  else decide (a.price ≤ b.price)

/-- The outer `for trade in trades` loop of `route.set_actions`. -/
def set_actions_go : List Trade → List RouteStep → List ℤ → List RouteStep
  | [], route_steps, _ => route_steps
  | t :: ts, route_steps, bought =>
    let p := apply_trade_to_steps t route_steps bought
    set_actions_go ts p.1 p.2

/-- `route.set_actions`. -/
def set_actions (route_steps : List RouteStep) (trades : List Trade) : List RouteStep :=
  (set_actions_go trades route_steps []).map fun step =>
    { step with actions := List.mergeSort step.actions action_le }

/-- `route.RouteInfo`, the info dict built on each strict improvement. -/
structure RouteInfo where
  profit_rate : ℚ
  risk : ℚ
  capital : ℚ
  transport_time : ℚ
  gross_profit : ℚ
  net_profit : ℚ
deriving DecidableEq

/-- The sort key of `route.route`:
`gross_profit / (from_price*quantity) if from_price*quantity > 0 else 0`. -/
def route_key (t : Trade) : ℚ :=
  if 0 < t.from_price * (t.quantity : ℚ) then
    t.gross_profit / (t.from_price * (t.quantity : ℚ))
  else 0

/-- One iteration of the candidate loop of `route.route` after the dedupe
check: the evaluated `(profit_rate, final route, route info)` of the
skeleton, or `none` when any guard fires (`continue`). -/
def eval_candidate (g : Graph) (ship : Ship) (sorted_trades : List Trade)
    (t : Trade) : Option (ℚ × List RouteStep × RouteInfo) :=
  let stations := [ship.location, t.from_station, t.to_station]
  let optimized_trades := select_trades stations sorted_trades ship
  let total_profit := (optimized_trades.map (fun u => u.gross_profit)).sum
  if optimized_trades = [] ∨ total_profit ≤ 0 then none
  else
    match g.shortest_path_fn ship.location t.from_station,
          g.shortest_path_fn t.from_station t.to_station with
    | some p1, some p2 =>
      let path := p1.dropLast ++ p2
      let risk := ((path.zip path.tail).map (fun e => g.edge_risk e.1 e.2)).sum
      let transport_time := ((path.zip path.tail).map (fun e => g.edge_time e.1 e.2)).sum
      -- `getattr(ship, 'ship_cost', 0.0)` is the default `0.0`: the Ship
      -- dataclass has no `ship_cost` field.
      let capital := 0 + (optimized_trades.map (fun u => u.from_price * (u.quantity : ℚ))).sum
      if transport_time = 0 then none
      else
        let net_profit := total_profit - risk * capital
        let profit_rate := net_profit / transport_time
        some (profit_rate,
          set_actions (formatted_route g path) optimized_trades,
          { profit_rate := profit_rate, risk := risk, capital := capital
            transport_time := transport_time, gross_profit := total_profit
            net_profit := net_profit })
    | _, _ => none

/-- The candidate loop of `route.route`, threading the `seen_routes` set and
the best-so-far triple (`best_profit_rate`, `best_route`,
`best_route_info`). -/
def route_go (g : Graph) (ship : Ship) (sorted_trades : List Trade) :
    List Trade → List (ℤ × ℤ × ℤ) → ℚ → Option (List RouteStep) → Option RouteInfo →
      Option (List RouteStep) × Option RouteInfo
  | [], _, _, best_route, best_info => (best_route, best_info)
  | t :: ts, seen, best_rate, best_route, best_info =>
    let skel : ℤ × ℤ × ℤ := (ship.location, t.from_station, t.to_station)
    if skel ∈ seen then
      route_go g ship sorted_trades ts seen best_rate best_route best_info
    else
      match eval_candidate g ship sorted_trades t with
      | none => route_go g ship sorted_trades ts (skel :: seen) best_rate best_route best_info
      | some e =>
        if best_rate < e.1 then
          route_go g ship sorted_trades ts (skel :: seen) e.1 (some e.2.1) (some e.2.2)
        else
          route_go g ship sorted_trades ts (skel :: seen) best_rate best_route best_info

/-- `route.route`: sort by capital-profitability descending, cap the
candidate list, track the best strictly-improving skeleton starting from a
best rate of `0.0`. -/
def route (trades : List Trade) (g : Graph) (ship : Ship) :
    Option (List RouteStep) × Option RouteInfo :=
  let sorted_trades := List.mergeSort trades (fun a b => decide (route_key b ≤ route_key a))
  route_go g ship sorted_trades (sorted_trades.take MAX_TRADES_TO_CONSIDER) [] 0 none none

/-- Specification device for the claim about `route.route`: the ordered list
of evaluated candidates — same guards and same `seen_routes` threading as
`route_go`, collecting every skeleton that reaches the `profit_rate`
computation instead of best-tracking. -/
def evals_go (g : Graph) (ship : Ship) (sorted_trades : List Trade) :
    List Trade → List (ℤ × ℤ × ℤ) → List (ℚ × List RouteStep × RouteInfo)
  | [], _ => []
  | t :: ts, seen =>
    let skel : ℤ × ℤ × ℤ := (ship.location, t.from_station, t.to_station)
    if skel ∈ seen then evals_go g ship sorted_trades ts seen
    else
      match eval_candidate g ship sorted_trades t with
      | none => evals_go g ship sorted_trades ts (skel :: seen)
      | some e => e :: evals_go g ship sorted_trades ts (skel :: seen)

/-- The evaluated candidates of a full `route.route` run. -/
def evals (trades : List Trade) (g : Graph) (ship : Ship) :
    List (ℚ × List RouteStep × RouteInfo) :=
  let sorted_trades := List.mergeSort trades (fun a b => decide (route_key b ≤ route_key a))
  evals_go g ship sorted_trades (sorted_trades.take MAX_TRADES_TO_CONSIDER) []

/-- Best-tracking as a standalone fold over evaluated candidates (strict
improvement only). -/
def fold_best :
    List (ℚ × List RouteStep × RouteInfo) → ℚ → Option (List RouteStep) → Option RouteInfo →
      Option (List RouteStep) × Option RouteInfo
  | [], _, best_route, best_info => (best_route, best_info)
  | e :: es, best_rate, best_route, best_info =>
    if best_rate < e.1 then fold_best es e.1 (some e.2.1) (some e.2.2)
    else fold_best es best_rate best_route best_info

/-- `NavigationGraph.shortest_path_length`: a pure lookup in the all-pairs
table; a missing entry at either level (`KeyError`) yields `None`. -/
def shortest_path_length (g : Graph) (source target : ℤ) : Option ℚ :=
  match g.paths.lookup source with
  | none => none
  | some row => row.lookup target

/-- The per-trade body of `pathfinder.calculate_net_profit`: both legs
resolvable sets `net_profit`, otherwise it is left as `None`. -/
def net_profit_update (g : Graph) (ship : Ship) (t : Trade) : Trade :=
  match shortest_path_length g ship.location t.from_station,
        shortest_path_length g t.from_station t.to_station with
  | some cost_to_source, some cost_to_destination =>
    { t with net_profit := some (t.gross_profit - (cost_to_source + cost_to_destination)) }
  | _, _ => { t with net_profit := none }

/-- `pathfinder.calculate_net_profit`. -/
def calculate_net_profit (order_matches : List Trade) (g : Graph) (ship : Ship) : List Trade :=
  order_matches.map (net_profit_update g ship)

/-- `pathfinder.filter_order_matches_low_profit`: Python keeps a trade when
`net_profit and net_profit > 0`, so `None` and `0.0` (falsy) and non-positive
values are all excluded. -/
def filter_order_matches_low_profit (order_matches : List Trade) : List Trade :=
  order_matches.filter fun t =>
    match t.net_profit with
    | some p => decide (0 < p)
    | none => false

/-- `AU_IN_M` of `NavigationGraph._calculate_time_in_warp`. -/
def AU_IN_M : ℝ := 149597870700

/-- `NavigationGraph._calculate_time_in_warp`: the closed-form warp flight
time.  The Python branch `if minimum_dist > warp_dist` reassigns
`max_ms_warp_speed` and leaves `cruise_time = 0`. -/
noncomputable def calculate_time_in_warp
    (warp_dist max_warp_speed max_subwarp_speed : ℝ) : ℝ :=
  let k_accel := max_warp_speed
  let k_decel := min (max_warp_speed / 3) 2
  let warp_dropout_speed := min (max_subwarp_speed / 2) 100
  let max_ms_warp_speed := max_warp_speed * AU_IN_M
  let accel_dist := AU_IN_M
  let decel_dist := max_ms_warp_speed / k_decel
  let minimum_dist := accel_dist + decel_dist
  let cruise_time := if warp_dist < minimum_dist then 0
    else (warp_dist - minimum_dist) / max_ms_warp_speed
  let max_ms := if warp_dist < minimum_dist then
      warp_dist * k_accel * k_decel / (k_accel + k_decel)
    else max_ms_warp_speed
  let accel_time := Real.log (max_ms / k_accel) / k_accel
  let decel_time := Real.log (max_ms / warp_dropout_speed) / k_decel
  cruise_time + accel_time + decel_time

/-- The 3-D Euclidean distance between two station positions
(`_calculate_time`, line 221). -/
noncomputable def warp_distance (s1 s2 : StationData) : ℝ :=
  Real.sqrt (((s1.px - s2.px : ℚ) : ℝ) ^ 2 + ((s1.py - s2.py : ℚ) : ℝ) ^ 2 +
    ((s1.pz - s2.pz : ℚ) : ℝ) ^ 2)

/-- `NavigationGraph._calculate_time`: a fixed 9 seconds for inter-system
(gate) edges; warp time plus a 2-second initial delay within a system. -/
noncomputable def calculate_time (from_station to_station : StationData)
    (max_warp_speed max_subwarp_speed : ℝ) : ℝ :=
  if from_station.solar_system_id ≠ to_station.solar_system_id then 9
  else calculate_time_in_warp (warp_distance from_station to_station)
    max_warp_speed max_subwarp_speed + 2

/-- `NavigationGraph._calculate_risk`: base risk from security with two step
increases, plus the gankers-area bonus keyed by the system name
(`gankers_areas.get(name, 0)` is embedded as a total bonus function). -/
def calculate_risk (to_station : StationData) (gankers_areas : String → ℚ) : ℚ :=
  let security := to_station.security
  let risk : ℚ := 4 / 100000 + (1 - security) * (4 / 10000)
  let risk := if security < 1 / 2 then risk + 5 / 1000 else risk
  let risk := if security < 1 / 10 then risk + 1 / 2 else risk
  risk + gankers_areas to_station.solar_system_name

/-- The edge weight set by `NavigationGraph._add_time_and_risk`:
`weight = time * player_cost + risk_cost * risk`. -/
noncomputable def edge_weight (time : ℝ) (risk : ℚ) (player_cost risk_cost : ℝ) : ℝ :=
  time * player_cost + risk_cost * (risk : ℝ)

/-! ## Helper lemmas about the matcher -/

theorem mem_filter_orders_for_cargo {os : List Order} {c : ℤ} {o' : Order}
    (h : o' ∈ filter_orders_for_cargo os c) :
    ∃ o ∈ os, o.item_cargo_volume ≠ 0 ∧
      0 < min o.volume_remain ⌊(c : ℚ) / o.item_cargo_volume⌋ ∧
      o' = { o with volume_remain := min o.volume_remain ⌊(c : ℚ) / o.item_cargo_volume⌋ } := by
  induction os with
  | nil => simp [filter_orders_for_cargo] at h
  | cons o os ih =>
    simp only [filter_orders_for_cargo] at h
    split_ifs at h with h0 h1
    · obtain ⟨w, hw, rest⟩ := ih h
      exact ⟨w, List.mem_cons_of_mem _ hw, rest⟩
    · rcases List.mem_cons.1 h with heq | hmem
      · exact ⟨o, List.mem_cons_self o os, h0, h1, heq⟩
      · obtain ⟨w, hw, rest⟩ := ih hmem
        exact ⟨w, List.mem_cons_of_mem _ hw, rest⟩
    · obtain ⟨w, hw, rest⟩ := ih h
      exact ⟨w, List.mem_cons_of_mem _ hw, rest⟩

theorem mem_filter_orders_for_capital_risk {os : List Order} {m : ℚ} {o' : Order}
    (h : o' ∈ filter_orders_for_capital_risk os m) :
    ∃ o ∈ os, o.price ≠ 0 ∧
      0 < min o.volume_remain ⌊m / o.price⌋ ∧
      o' = { o with volume_remain := min o.volume_remain ⌊m / o.price⌋ } := by
  induction os with
  | nil => simp [filter_orders_for_capital_risk] at h
  | cons o os ih =>
    simp only [filter_orders_for_capital_risk] at h
    split_ifs at h with h0 h1
    · obtain ⟨w, hw, rest⟩ := ih h
      exact ⟨w, List.mem_cons_of_mem _ hw, rest⟩
    · rcases List.mem_cons.1 h with heq | hmem
      · exact ⟨o, List.mem_cons_self o os, h0, h1, heq⟩
      · obtain ⟨w, hw, rest⟩ := ih hmem
        exact ⟨w, List.mem_cons_of_mem _ hw, rest⟩
    · obtain ⟨w, hw, rest⟩ := ih h
      exact ⟨w, List.mem_cons_of_mem _ hw, rest⟩

theorem mem_create_trades {S B : List Order} {t : Trade} (h : t ∈ create_trades S B) :
    ∃ s ∈ S, ∃ b ∈ B, try_match s b = some t := by
  simp only [create_trades, List.mem_flatMap, List.mem_filterMap, List.mem_filter] at h
  obtain ⟨s, hs, b, ⟨hb, _⟩, hm⟩ := h
  exact ⟨s, hs, b, hb, hm⟩

theorem try_match_eq_some {s b : Order} {t : Trade} (h : try_match s b = some t) :
    s.price ≤ b.price * (1 - TAX_RATE) ∧
    t.from_price = s.price ∧ t.to_price = b.price ∧
    t.item_cargo_volume = s.item_cargo_volume ∧
    t.quantity = min s.volume_remain b.volume_remain ∧
    t.gross_profit =
      ((min s.volume_remain b.volume_remain : ℤ) : ℚ) * (b.price * (1 - TAX_RATE) - s.price) ∧
    PROFIT_THRESHOLD ≤ t.gross_profit := by
  simp only [try_match] at h
  split_ifs at h with h1 h2
  obtain rfl : _ = t := Option.some.inj h
  exact ⟨not_lt.1 h1, rfl, rfl, rfl, rfl, rfl, not_lt.1 h2⟩

/-- Membership in a doubly-filtered order side (the cargo filter followed by
the capital filter, as both sides of `arbitrage` apply them), unpacked to the
pre-filter list. -/
theorem filtered_side_facts {X : List Order} {cargo_space : ℤ} {o' : Order}
    (h : o' ∈ filter_orders_for_capital_risk
      (filter_orders_for_cargo X cargo_space) MAX_CAPITAL) :
    ∃ o ∈ X, o.price = o'.price ∧ o.item_cargo_volume = o'.item_cargo_volume ∧
      o.item_cargo_volume ≠ 0 ∧ o.price ≠ 0 ∧
      (o'.volume_remain : ℚ) ≤ (cargo_space : ℚ) / o.item_cargo_volume ∧
      (o'.volume_remain : ℚ) ≤ MAX_CAPITAL / o.price := by
  obtain ⟨o1, ho1, hp1, hpos1, rfl⟩ := mem_filter_orders_for_capital_risk h
  obtain ⟨o, ho, hv0, hpos0, rfl⟩ := mem_filter_orders_for_cargo ho1
  refine ⟨o, ho, rfl, rfl, hv0, hp1, ?_, ?_⟩
  · calc ((min (min o.volume_remain ⌊(cargo_space : ℚ) / o.item_cargo_volume⌋)
        ⌊MAX_CAPITAL / o.price⌋ : ℤ) : ℚ)
        ≤ ((min o.volume_remain ⌊(cargo_space : ℚ) / o.item_cargo_volume⌋ : ℤ) : ℚ) := by
          exact_mod_cast min_le_left _ _
      _ ≤ ((⌊(cargo_space : ℚ) / o.item_cargo_volume⌋ : ℤ) : ℚ) := by
          exact_mod_cast min_le_right _ _
      _ ≤ (cargo_space : ℚ) / o.item_cargo_volume := Int.floor_le _
  · calc ((min (min o.volume_remain ⌊(cargo_space : ℚ) / o.item_cargo_volume⌋)
        ⌊MAX_CAPITAL / o.price⌋ : ℤ) : ℚ)
        ≤ ((⌊MAX_CAPITAL / o.price⌋ : ℤ) : ℚ) := by exact_mod_cast min_le_right _ _
      _ ≤ MAX_CAPITAL / o.price := Int.floor_le _

/-- Unfolding `arbitrage` to `create_trades` applied to the two filtered
sides. -/
theorem arbitrage_eq (orders : List Order) (cargo_space : ℤ) :
    arbitrage orders cargo_space =
      create_trades
        (filter_orders_for_capital_risk
          (filter_orders_for_cargo
            (List.mergeSort (orders.filter (fun o => !o.is_buy_order))
              (fun a b => decide (a.price ≤ b.price))) cargo_space) MAX_CAPITAL)
        (filter_orders_for_capital_risk
          (filter_orders_for_cargo
            (List.mergeSort (orders.filter (fun o => o.is_buy_order))
              (fun a b => decide (b.price ≤ a.price))) cargo_space) MAX_CAPITAL) := rfl

/-! ## C3 -/

/-- C3: for every input order list and cargo capacity, every Trade returned
by the matcher `arbitrage` satisfies
`to_price * (1 - TAX_RATE) ≥ from_price` and
`gross_profit ≥ PROFIT_THRESHOLD`. -/
theorem C3_arbitrage_trades_profitable (orders : List Order) (cargo_space : ℤ)
    (t : Trade) (ht : t ∈ arbitrage orders cargo_space) :
    t.from_price ≤ t.to_price * (1 - TAX_RATE) ∧ PROFIT_THRESHOLD ≤ t.gross_profit := by
  rw [arbitrage_eq] at ht
  obtain ⟨s, _, b, _, hm⟩ := mem_create_trades ht
  obtain ⟨hprice, hfrom, hto, -, -, -, hthr⟩ := try_match_eq_some hm
  rw [hfrom, hto]
  exact ⟨hprice, hthr⟩

def sC : Order :=
  { order_id := 10, region_id := 1, location_id := 100, type_id := 5, is_buy_order := false
    price := 10, issued := 0, volume_remain := 1000000, item_name := "x", item_cargo_volume := 1 }

def bC : Order :=
  { order_id := 20, region_id := 2, location_id := 200, type_id := 5, is_buy_order := true
    price := 100, issued := 0, volume_remain := 1000000, item_name := "x", item_cargo_volume := 1 }

def tC : Trade :=
  { from_station := 100, to_station := 200, from_order_id := 10, to_order_id := 20
    item_name := "x", type_id := 5, item_cargo_volume := 1, from_price := 10
    to_price := 100, quantity := 1000000, cargo := 1000000, gross_profit := 82000000
    net_profit := none }

set_option maxRecDepth 100000

unseal Rat.mul Rat.inv Rat.add Rat.sub Rat.ofScientific List.merge List.mergeSort in
theorem C3_witness :
    tC.from_price ≤ tC.to_price * (1 - TAX_RATE) ∧ PROFIT_THRESHOLD ≤ tC.gross_profit :=
  C3_arbitrage_trades_profitable [sC, bC] 1000000 tC (by decide)

/-! ## C5 -/

/-- C5: for every input order list with non-negative prices and item volumes,
every Trade returned by `arbitrage` (cargo filter then capital filter on both
sides before matching) satisfies `quantity * item_cargo_volume ≤
cargo_space` and `quantity * from_price ≤ MAX_CAPITAL`. -/
theorem C5_arbitrage_trades_within_budgets (orders : List Order) (cargo_space : ℤ)
    (t : Trade)
    (horders : ∀ o ∈ orders, 0 ≤ o.price ∧ 0 ≤ o.item_cargo_volume)
    (ht : t ∈ arbitrage orders cargo_space) :
    (t.quantity : ℚ) * t.item_cargo_volume ≤ (cargo_space : ℚ) ∧
    (t.quantity : ℚ) * t.from_price ≤ MAX_CAPITAL := by
  rw [arbitrage_eq] at ht
  obtain ⟨s, hs, b, _, hm⟩ := mem_create_trades ht
  obtain ⟨o, ho, hpe, hve, hv0, hp0, hcargo, hcap⟩ := filtered_side_facts hs
  rw [List.mem_mergeSort, List.mem_filter] at ho
  have hvolpos : 0 < o.item_cargo_volume :=
    lt_of_le_of_ne (horders o ho.1).2 (Ne.symm hv0)
  have hppos : 0 < o.price := lt_of_le_of_ne (horders o ho.1).1 (Ne.symm hp0)
  obtain ⟨-, hfrom, -, hvol, hq, -, -⟩ := try_match_eq_some hm
  have hq_le : (t.quantity : ℚ) ≤ (s.volume_remain : ℚ) := by
    rw [hq]; exact_mod_cast min_le_left _ _
  constructor
  · rw [hvol, ← hve]
    calc (t.quantity : ℚ) * o.item_cargo_volume
        ≤ (s.volume_remain : ℚ) * o.item_cargo_volume :=
          mul_le_mul_of_nonneg_right hq_le hvolpos.le
      _ ≤ ((cargo_space : ℚ) / o.item_cargo_volume) * o.item_cargo_volume :=
          mul_le_mul_of_nonneg_right hcargo hvolpos.le
      _ = (cargo_space : ℚ) := div_mul_cancel₀ _ (ne_of_gt hvolpos)
  · rw [hfrom, ← hpe]
    calc (t.quantity : ℚ) * o.price
        ≤ (s.volume_remain : ℚ) * o.price := mul_le_mul_of_nonneg_right hq_le hppos.le
      _ ≤ (MAX_CAPITAL / o.price) * o.price := mul_le_mul_of_nonneg_right hcap hppos.le
      _ = MAX_CAPITAL := div_mul_cancel₀ _ (ne_of_gt hppos)

unseal Rat.mul Rat.inv Rat.add Rat.sub Rat.ofScientific List.merge List.mergeSort in
theorem C5_witness :
    (tC.quantity : ℚ) * tC.item_cargo_volume ≤ ((1000000 : ℤ) : ℚ) ∧
    (tC.quantity : ℚ) * tC.from_price ≤ MAX_CAPITAL :=
  C5_arbitrage_trades_within_budgets [sC, bC] 1000000 tC (by decide) (by decide)

/-! ## C10 -/

/-- C10: both order filters return a subsequence of their input (witnessed by
a sublist of the input pointwise related to the output), where each output
order equals its input order in every field except `volume_remain`, and the
output `volume_remain` is at least 1 and never more than the input's.  (The
filters build fresh copies; the embedding is purely functional, so input
immutability is inherent.) -/
theorem C10_filter_orders_frame (os : List Order) (cargo_space : ℤ) (max_amount : ℚ) :
    (∃ sub : List Order, sub.Sublist os ∧
      List.Forall₂ (fun o o' =>
        o' = { o with volume_remain := o'.volume_remain } ∧
        1 ≤ o'.volume_remain ∧ o'.volume_remain ≤ o.volume_remain)
        sub (filter_orders_for_cargo os cargo_space)) ∧
    (∃ sub : List Order, sub.Sublist os ∧
      List.Forall₂ (fun o o' =>
        o' = { o with volume_remain := o'.volume_remain } ∧
        1 ≤ o'.volume_remain ∧ o'.volume_remain ≤ o.volume_remain)
        sub (filter_orders_for_capital_risk os max_amount)) := by
  constructor
  · induction os with
    | nil => exact ⟨[], List.Sublist.refl _, List.Forall₂.nil⟩
    | cons o os ih =>
      obtain ⟨sub, hsub, hrel⟩ := ih
      simp only [filter_orders_for_cargo]
      split_ifs with h0 h1
      · exact ⟨sub, hsub.cons _, hrel⟩
      · refine ⟨o :: sub, hsub.cons₂ _, List.Forall₂.cons ⟨rfl, ?_, ?_⟩ hrel⟩
        · dsimp only; omega
        · dsimp only; exact min_le_left _ _
      · exact ⟨sub, hsub.cons _, hrel⟩
  · induction os with
    | nil => exact ⟨[], List.Sublist.refl _, List.Forall₂.nil⟩
    | cons o os ih =>
      obtain ⟨sub, hsub, hrel⟩ := ih
      simp only [filter_orders_for_capital_risk]
      split_ifs with h0 h1
      · exact ⟨sub, hsub.cons _, hrel⟩
      · refine ⟨o :: sub, hsub.cons₂ _, List.Forall₂.cons ⟨rfl, ?_, ?_⟩ hrel⟩
        · dsimp only; omega
        · dsimp only; exact min_le_left _ _
      · exact ⟨sub, hsub.cons _, hrel⟩

/-! ## C1 -/

def t0 : Trade :=
  { from_station := 1, to_station := 2, from_order_id := 10, to_order_id := 20
    item_name := "x", type_id := 5, item_cargo_volume := 1, from_price := 10
    to_price := 20, quantity := 100, cargo := 100, gross_profit := 840, net_profit := none }

def ship0 : Ship :=
  { location := 0, cargo := 1000, max_warp_speed := 1, max_subwarp_speed := 1
    gankers_areas := [], player_cost := 1, risk_cost := 1 }

unseal Rat.mul Rat.inv Rat.add Rat.sub Rat.ofScientific List.merge List.mergeSort in
/-- C1: evaluation at the failing input.  The matcher creates `t0` with
`gross_profit = 100 * (20 * (1 - TAX_RATE) - 10) = 840`; re-quantifying it via
the route optimizer's `select_trades` (same quantity still feasible) yields a
trade whose recomputed `gross_profit` is `(to_price - from_price) * quantity
= 1000`, not `quantity * (to_price * (1 - TAX_RATE) - from_price) = 840`:
the tax factor is dropped on re-quantification. -/
theorem C1_select_trades_gross_profit_ignores_tax :
    (select_trades [1, 2] [t0] ship0).map (fun t => (t.quantity, t.gross_profit))
        = [(100, 1000)] ∧
    t0.gross_profit = (t0.quantity : ℚ) * (t0.to_price * (1 - TAX_RATE) - t0.from_price) ∧
    ((1000 : ℚ) ≠ (100 : ℚ) * ((20 : ℚ) * (1 - TAX_RATE) - 10)) := by decide

/-! ## C2: loop invariants of `select_trades_go` -/

/-- Accepted quantities in the greedy loop always fit the remaining cargo
budget: either the cumulative cargo stays within `ship.cargo`, or nothing was
selected at all. -/
theorem select_go_cargo_sum (ship : Ship) :
    ∀ (ts : List Trade) (used : List (ℤ × ℤ)) (cargo capital : ℚ),
      (∀ t ∈ ts, 0 < t.item_cargo_volume) →
      cargo + ((select_trades_go ship ts used cargo capital).map
          (fun t => t.item_cargo_volume * (t.quantity : ℚ))).sum ≤ (ship.cargo : ℚ) ∨
        select_trades_go ship ts used cargo capital = []
  | [], _, _, _, _ => Or.inr rfl
  | t :: rest, used, cargo, capital, hts => by
    have hvol : 0 < t.item_cargo_volume := hts t (List.mem_cons_self _ _)
    have hrest : ∀ u ∈ rest, 0 < u.item_cargo_volume :=
      fun u hu => hts u (List.mem_cons_of_mem _ hu)
    simp only [select_trades_go]
    set fr := (used.lookup t.from_order_id).getD t.quantity with hfr
    set tr := (used.lookup t.to_order_id).getD t.quantity with htr
    set mqc : ℤ := ⌊((ship.cargo : ℚ) - cargo) / t.item_cargo_volume⌋ with hmqc
    set mqk : ℤ := ⌊(MAX_CAPITAL - capital) / t.from_price⌋ with hmqk
    set m := min t.quantity (min fr (min tr (min mqc mqk))) with hm
    by_cases hm0 : m ≤ 0
    · rw [if_pos hm0]
      exact select_go_cargo_sum ship rest used cargo capital hrest
    · rw [if_neg hm0]
      push_neg at hm0
      have hstep : t.item_cargo_volume * (m : ℚ) ≤ (ship.cargo : ℚ) - cargo := by
        have h1 : (m : ℚ) ≤ (mqc : ℚ) := by exact_mod_cast (by omega : m ≤ mqc)
        have h2 : (mqc : ℚ) ≤ ((ship.cargo : ℚ) - cargo) / t.item_cargo_volume :=
          Int.floor_le _
        calc t.item_cargo_volume * (m : ℚ)
            ≤ t.item_cargo_volume * (((ship.cargo : ℚ) - cargo) / t.item_cargo_volume) :=
              mul_le_mul_of_nonneg_left (h1.trans h2) hvol.le
          _ = (ship.cargo : ℚ) - cargo := by
              rw [mul_comm]; exact div_mul_cancel₀ _ (ne_of_gt hvol)
      refine Or.inl ?_
      rw [List.map_cons, List.sum_cons]
      dsimp only
      split_ifs with hbreak
      · simpa using by linarith
      · rcases select_go_cargo_sum ship rest
            ((t.to_order_id, tr - m) :: (t.from_order_id, fr - m) :: used)
            (cargo + t.item_cargo_volume * (m : ℚ)) (capital + t.from_price * (m : ℚ))
            hrest with hrec | hrec
        · linarith
        · rw [hrec]; simpa using by linarith

/-- Accepted quantities in the greedy loop always fit the remaining capital
budget: either the cumulative capital stays within `MAX_CAPITAL`, or nothing
was selected. -/
theorem select_go_capital_sum (ship : Ship) :
    ∀ (ts : List Trade) (used : List (ℤ × ℤ)) (cargo capital : ℚ),
      (∀ t ∈ ts, 0 < t.from_price) →
      capital + ((select_trades_go ship ts used cargo capital).map
          (fun t => t.from_price * (t.quantity : ℚ))).sum ≤ MAX_CAPITAL ∨
        select_trades_go ship ts used cargo capital = []
  | [], _, _, _, _ => Or.inr rfl
  | t :: rest, used, cargo, capital, hts => by
    have hpr : 0 < t.from_price := hts t (List.mem_cons_self _ _)
    have hrest : ∀ u ∈ rest, 0 < u.from_price :=
      fun u hu => hts u (List.mem_cons_of_mem _ hu)
    simp only [select_trades_go]
    set fr := (used.lookup t.from_order_id).getD t.quantity with hfr
    set tr := (used.lookup t.to_order_id).getD t.quantity with htr
    set mqc : ℤ := ⌊((ship.cargo : ℚ) - cargo) / t.item_cargo_volume⌋ with hmqc
    set mqk : ℤ := ⌊(MAX_CAPITAL - capital) / t.from_price⌋ with hmqk
    set m := min t.quantity (min fr (min tr (min mqc mqk))) with hm
    by_cases hm0 : m ≤ 0
    · rw [if_pos hm0]
      exact select_go_capital_sum ship rest used cargo capital hrest
    · rw [if_neg hm0]
      push_neg at hm0
      have hstep : t.from_price * (m : ℚ) ≤ MAX_CAPITAL - capital := by
        have h1 : (m : ℚ) ≤ (mqk : ℚ) := by exact_mod_cast (by omega : m ≤ mqk)
        have h2 : (mqk : ℚ) ≤ (MAX_CAPITAL - capital) / t.from_price := Int.floor_le _
        calc t.from_price * (m : ℚ)
            ≤ t.from_price * ((MAX_CAPITAL - capital) / t.from_price) :=
              mul_le_mul_of_nonneg_left (h1.trans h2) hpr.le
          _ = MAX_CAPITAL - capital := by
              rw [mul_comm]; exact div_mul_cancel₀ _ (ne_of_gt hpr)
      refine Or.inl ?_
      rw [List.map_cons, List.sum_cons]
      dsimp only
      split_ifs with hbreak
      · simpa using by linarith
      · rcases select_go_capital_sum ship rest
            ((t.to_order_id, tr - m) :: (t.from_order_id, fr - m) :: used)
            (cargo + t.item_cargo_volume * (m : ℚ)) (capital + t.from_price * (m : ℚ))
            hrest with hrec | hrec
        · linarith
        · rw [hrec]; simpa using by linarith

/-- The remaining capacity the greedy loop grants the order id `o`: the
`used_orders` entry if present, else the default `V`. -/
def order_cap (used : List (ℤ × ℤ)) (o V : ℤ) : ℤ := (used.lookup o).getD V

/-- Per-order consumption invariant of the greedy loop: the total quantity of
selected trades referencing `o` (as buy or sell leg) never exceeds the
remaining capacity of `o`, provided every upcoming trade referencing `o` has
quantity at most the default capacity `V`. -/
theorem select_go_order_sum (ship : Ship) :
    ∀ (ts : List Trade) (used : List (ℤ × ℤ)) (cargo capital : ℚ) (o V : ℤ),
      (∀ t ∈ ts, (t.from_order_id = o ∨ t.to_order_id = o) → t.quantity ≤ V) →
      0 ≤ order_cap used o V →
      (((select_trades_go ship ts used cargo capital).filter
          (fun t => t.from_order_id == o || t.to_order_id == o)).map
        (fun t => t.quantity)).sum ≤ order_cap used o V
  | [], used, cargo, capital, o, V, _, hcap => by
    simpa [select_trades_go] using hcap
  | t :: rest, used, cargo, capital, o, V, hts, hcap => by
    have hrest : ∀ u ∈ rest, (u.from_order_id = o ∨ u.to_order_id = o) → u.quantity ≤ V :=
      fun u hu => hts u (List.mem_cons_of_mem _ hu)
    simp only [select_trades_go]
    set fr := (used.lookup t.from_order_id).getD t.quantity with hfr
    set tr := (used.lookup t.to_order_id).getD t.quantity with htr
    set mqc : ℤ := ⌊((ship.cargo : ℚ) - cargo) / t.item_cargo_volume⌋ with hmqc
    set mqk : ℤ := ⌊(MAX_CAPITAL - capital) / t.from_price⌋ with hmqk
    set m := min t.quantity (min fr (min tr (min mqc mqk))) with hm
    by_cases hm0 : m ≤ 0
    · rw [if_pos hm0]
      exact select_go_order_sum ship rest used cargo capital o V hrest hcap
    · rw [if_neg hm0]
      push_neg at hm0
      have hmfr : m ≤ fr := by omega
      have hmtr : m ≤ tr := by omega
      by_cases hto : t.to_order_id = o
      · have hqV : t.quantity ≤ V := hts t (List.mem_cons_self _ _) (Or.inr hto)
        have htr_cap : tr ≤ order_cap used o V := by
          rw [htr, hto, order_cap]
          cases hL : used.lookup o with
          | none => simpa [hL] using hqV
          | some r => simp [hL]
        have hcap' : order_cap
            ((t.to_order_id, tr - m) :: (t.from_order_id, fr - m) :: used) o V = tr - m := by
          simp [order_cap, List.lookup, hto]
        rw [List.filter_cons]
        have hp : (t.from_order_id == o || t.to_order_id == o) = true := by
          simp [hto]
        dsimp only
        rw [if_pos hp, List.map_cons, List.sum_cons]
        dsimp only
        split_ifs with hbreak
        · simp only [List.filter_nil, List.map_nil, List.sum_nil]
          omega
        · have hrec := select_go_order_sum ship rest
            ((t.to_order_id, tr - m) :: (t.from_order_id, fr - m) :: used)
            (cargo + t.item_cargo_volume * (m : ℚ)) (capital + t.from_price * (m : ℚ))
            o V hrest (by rw [hcap']; omega)
          rw [hcap'] at hrec
          omega
      · by_cases hfrom : t.from_order_id = o
        · have hqV : t.quantity ≤ V := hts t (List.mem_cons_self _ _) (Or.inl hfrom)
          have hfr_cap : fr ≤ order_cap used o V := by
            rw [hfr, hfrom, order_cap]
            cases hL : used.lookup o with
            | none => simpa [hL] using hqV
            | some r => simp [hL]
          have hto' : (o == t.to_order_id) = false :=
            beq_eq_false_iff_ne.mpr (fun h => hto h.symm)
          have hcap' : order_cap
              ((t.to_order_id, tr - m) :: (t.from_order_id, fr - m) :: used) o V = fr - m := by
            simp [order_cap, List.lookup, hto', hfrom]
          rw [List.filter_cons]
          have hp : (t.from_order_id == o || t.to_order_id == o) = true := by
            simp [hfrom]
          dsimp only
          rw [if_pos hp, List.map_cons, List.sum_cons]
          dsimp only
          split_ifs with hbreak
          · simp only [List.filter_nil, List.map_nil, List.sum_nil]
            omega
          · have hrec := select_go_order_sum ship rest
              ((t.to_order_id, tr - m) :: (t.from_order_id, fr - m) :: used)
              (cargo + t.item_cargo_volume * (m : ℚ)) (capital + t.from_price * (m : ℚ))
              o V hrest (by rw [hcap']; omega)
            rw [hcap'] at hrec
            omega
        · have hto' : (o == t.to_order_id) = false :=
            beq_eq_false_iff_ne.mpr (fun h => hto h.symm)
          have hfrom' : (o == t.from_order_id) = false :=
            beq_eq_false_iff_ne.mpr (fun h => hfrom h.symm)
          have hcap' : order_cap
              ((t.to_order_id, tr - m) :: (t.from_order_id, fr - m) :: used) o V =
              order_cap used o V := by
            simp [order_cap, List.lookup, hto', hfrom']
          rw [List.filter_cons]
          have hp : (t.from_order_id == o || t.to_order_id == o) = false := by
            simp [hto, hfrom]
          dsimp only
          rw [if_neg (by simp [hp])]
          split_ifs with hbreak
          · simpa using hcap
          · have hrec := select_go_order_sum ship rest
              ((t.to_order_id, tr - m) :: (t.from_order_id, fr - m) :: used)
              (cargo + t.item_cargo_volume * (m : ℚ)) (capital + t.from_price * (m : ℚ))
              o V hrest (by rw [hcap']; omega)
            rw [hcap'] at hrec
            exact hrec

def shipNeg : Ship := { ship0 with cargo := -1 }

unseal Rat.mul Rat.inv Rat.add Rat.sub Rat.ofScientific List.merge List.mergeSort in
/-- C2 counterexample: for a ship whose cargo capacity is negative (the claim
quantifies over *every* ship), `select_trades` selects nothing and the cargo
sum `0` exceeds the capacity `-1`, so claim part (1) fails as stated; the
input trade satisfies the claim's hypotheses
(`item_cargo_volume > 0`, `from_price > 0`). -/
theorem C2_counterexample :
    (0 < t0.item_cargo_volume ∧ 0 < t0.from_price) ∧
    ¬ (((select_trades [1, 2] [t0] shipNeg).map
        (fun t => t.item_cargo_volume * (t.quantity : ℚ))).sum ≤ (shipNeg.cargo : ℚ)) := by
  decide

/-- C2 (amended): for every skeleton, every trade list whose trades all have
`item_cargo_volume > 0` and `from_price > 0`, and every ship with
*non-negative cargo capacity*, the trades selected by `select_trades`
satisfy: (1) total cargo at most the ship's capacity; (2) total capital at
most `MAX_CAPITAL`; (3) for every order id `o` and volume bound `V ≥ 0`
dominating the quantity of every input trade referencing `o` (the order's
remaining volume as represented by the input trades), the total selected
quantity referencing `o` is at most `V`. -/
theorem C2_select_trades_budgets (stations : List ℤ) (trades : List Trade) (ship : Ship)
    (htr : ∀ t ∈ trades, 0 < t.item_cargo_volume ∧ 0 < t.from_price)
    (hship : 0 ≤ ship.cargo) :
    (((select_trades stations trades ship).map
        (fun t => t.item_cargo_volume * (t.quantity : ℚ))).sum ≤ (ship.cargo : ℚ)) ∧
    (((select_trades stations trades ship).map
        (fun t => t.from_price * (t.quantity : ℚ))).sum ≤ MAX_CAPITAL) ∧
    (∀ o V : ℤ, 0 ≤ V →
      (∀ t ∈ trades, (t.from_order_id = o ∨ t.to_order_id = o) → t.quantity ≤ V) →
      (((select_trades stations trades ship).filter
          (fun t => t.from_order_id == o || t.to_order_id == o)).map
        (fun t => t.quantity)).sum ≤ V) := by
  set S := List.mergeSort (trades.filter fun t =>
      decide (t.from_station ∈ stations) && decide (t.to_station ∈ stations) &&
        decide (stations.indexOf t.from_station < stations.indexOf t.to_station))
    (fun a b => decide (select_key b ≤ select_key a)) with hSdef
  have hS : ∀ t ∈ S, t ∈ trades := by
    intro t ht
    rw [hSdef, List.mem_mergeSort, List.mem_filter] at ht
    exact ht.1
  have hsel : select_trades stations trades ship = select_trades_go ship S [] 0 0 := rfl
  refine ⟨?_, ?_, ?_⟩
  · rcases select_go_cargo_sum ship S [] 0 0 (fun t ht => (htr t (hS t ht)).1) with h | h
    · rw [hsel]; linarith
    · rw [hsel, h]
      simpa using (by exact_mod_cast hship : (0 : ℚ) ≤ (ship.cargo : ℚ))
  · rcases select_go_capital_sum ship S [] 0 0 (fun t ht => (htr t (hS t ht)).2) with h | h
    · rw [hsel]; linarith
    · rw [hsel, h]
      simp only [List.map_nil, List.sum_nil]
      norm_num [MAX_CAPITAL]
  · intro o V hV hts
    have h := select_go_order_sum ship S [] 0 0 o V (fun t ht => hts t (hS t ht))
      (by simpa [order_cap] using hV)
    rw [hsel]
    simpa [order_cap] using h

unseal Rat.mul Rat.inv Rat.add Rat.sub Rat.ofScientific List.merge List.mergeSort in
theorem C2_witness :
    (((select_trades [1, 2] [t0] ship0).map
        (fun t => t.item_cargo_volume * (t.quantity : ℚ))).sum ≤ (ship0.cargo : ℚ)) ∧
    (((select_trades [1, 2] [t0] ship0).map
        (fun t => t.from_price * (t.quantity : ℚ))).sum ≤ MAX_CAPITAL) ∧
    (((select_trades [1, 2] [t0] ship0).filter
        (fun t => t.from_order_id == 10 || t.to_order_id == 10)).map
      (fun t => t.quantity)).sum ≤ 100 :=
  ⟨(C2_select_trades_budgets [1, 2] [t0] ship0 (by decide) (by decide)).1,
   (C2_select_trades_budgets [1, 2] [t0] ship0 (by decide) (by decide)).2.1,
   (C2_select_trades_budgets [1, 2] [t0] ship0 (by decide) (by decide)).2.2 10 100
     (by decide) (by decide)⟩

/-! ## C8 -/

unseal Rat.mul Rat.inv Rat.add Rat.sub Rat.ofScientific List.merge List.mergeSort in
/-- C8 counterexample: `snipe` filters only on the *from* (sell-side) order's
region.  With a sell order in region 1 and a buy order in region 2,
`snipe` for `current_region = 1` returns the trade `tC`, whose buy-side
order lies in region 2 — refuting "both orders of any returned Trade belong
to the given region". -/
theorem C8_counterexample :
    snipe [sC, bC] 1000000 1 = some tC ∧
    order_region [sC, bC] tC.to_order_id = some 2 ∧ (2 : ℤ) ≠ 1 := by decide

theorem pairwise_gross_mergeSort (R : List Trade) :
    (List.mergeSort R (fun a b => decide (b.gross_profit ≤ a.gross_profit))).Pairwise
      (fun a b => decide (b.gross_profit ≤ a.gross_profit) = true) := by
  exact List.sorted_mergeSort
    (fun a b c h1 h2 => by
      simp only [decide_eq_true_eq] at h1 h2 ⊢; exact h2.trans h1)
    (fun a b => by
      simp only [Bool.or_eq_true, decide_eq_true_eq]
      exact le_total b.gross_profit a.gross_profit)
    R

/-- The head-of-sorted-list shape of `snipe`. -/
theorem snipe_eq (orders : List Order) (cargo_space : ℤ) (current_region : ℤ) :
    snipe orders cargo_space current_region =
      match List.mergeSort ((arbitrage orders cargo_space).filter
          (fun t => decide (order_region orders t.from_order_id = some current_region)))
        (fun a b => decide (b.gross_profit ≤ a.gross_profit)) with
      | [] => none
      | t :: _ => if SNIPE_PROFIT_THRESHOLD < t.gross_profit then some t else none := rfl

/-- C8 (amended): `snipe` restricts matching to trades whose *sell-side*
(`from`) order's region is the given region, and among those returns a trade
of maximal `gross_profit` exactly when that profit strictly exceeds
`SNIPE_PROFIT_THRESHOLD`, else `None`. -/
theorem C8_snipe_region_and_max (orders : List Order) (cargo_space : ℤ)
    (current_region : ℤ) :
    (∀ t, snipe orders cargo_space current_region = some t →
      t ∈ arbitrage orders cargo_space ∧
      order_region orders t.from_order_id = some current_region ∧
      SNIPE_PROFIT_THRESHOLD < t.gross_profit ∧
      ∀ t' ∈ arbitrage orders cargo_space,
        order_region orders t'.from_order_id = some current_region →
        t'.gross_profit ≤ t.gross_profit) ∧
    (snipe orders cargo_space current_region = none →
      ∀ t' ∈ arbitrage orders cargo_space,
        order_region orders t'.from_order_id = some current_region →
        t'.gross_profit ≤ SNIPE_PROFIT_THRESHOLD) := by
  have hmemM : ∀ u : Trade, u ∈ List.mergeSort ((arbitrage orders cargo_space).filter
      (fun t => decide (order_region orders t.from_order_id = some current_region)))
      (fun a b => decide (b.gross_profit ≤ a.gross_profit)) ↔
      (u ∈ arbitrage orders cargo_space ∧
        order_region orders u.from_order_id = some current_region) := by
    intro u
    rw [List.mem_mergeSort, List.mem_filter, decide_eq_true_eq]
  have hpair := pairwise_gross_mergeSort ((arbitrage orders cargo_space).filter
    (fun t => decide (order_region orders t.from_order_id = some current_region)))
  rcases hMeq : List.mergeSort ((arbitrage orders cargo_space).filter
      (fun t => decide (order_region orders t.from_order_id = some current_region)))
      (fun a b => decide (b.gross_profit ≤ a.gross_profit)) with - | ⟨thead, rest⟩
  · constructor
    · intro t hsome
      simp only [snipe_eq, hMeq] at hsome
      simp at hsome
    · intro _ t' ht' hreg
      have hmem := (hmemM t').2 ⟨ht', hreg⟩
      rw [hMeq] at hmem
      simp at hmem
  · rw [hMeq, List.pairwise_cons] at hpair
    have hhead : ∀ u ∈ arbitrage orders cargo_space,
        order_region orders u.from_order_id = some current_region →
        u.gross_profit ≤ thead.gross_profit := by
      intro u hu hreg
      have hmem := (hmemM u).2 ⟨hu, hreg⟩
      rw [hMeq] at hmem
      rcases List.mem_cons.1 hmem with rfl | hmem2
      · exact le_refl _
      · exact of_decide_eq_true (hpair.1 u hmem2)
    have hth := (hmemM thead).1 (by rw [hMeq]; exact List.mem_cons_self _ _)
    have hsnipe : snipe orders cargo_space current_region =
        if SNIPE_PROFIT_THRESHOLD < thead.gross_profit then some thead else none := by
      rw [snipe_eq, hMeq]
    constructor
    · intro t hsome
      rw [hsnipe] at hsome
      split_ifs at hsome with hthr
      obtain rfl : thead = t := Option.some.inj hsome
      exact ⟨hth.1, hth.2, hthr, hhead⟩
    · intro hnone t' ht' hreg
      rw [hsnipe] at hnone
      split_ifs at hnone with hthr
      exact le_trans (hhead t' ht' hreg) (not_lt.1 hthr)

unseal Rat.mul Rat.inv Rat.add Rat.sub Rat.ofScientific List.merge List.mergeSort in
theorem C8_witness :
    tC ∈ arbitrage [sC, bC] 1000000 ∧
    order_region [sC, bC] tC.from_order_id = some 1 ∧
    SNIPE_PROFIT_THRESHOLD < tC.gross_profit ∧
    ∀ t' ∈ arbitrage [sC, bC] 1000000,
      order_region [sC, bC] t'.from_order_id = some 1 →
      t'.gross_profit ≤ tC.gross_profit :=
  (C8_snipe_region_and_max [sC, bC] 1000000 1).1 tC (by decide)

/-! ## C7 -/

/-- C7: `shortest_path_length` returns `None` exactly when the all-pairs
table has no entry for the pair (at either nesting level), and a trade with
an unresolvable leg gets `net_profit = None` from `calculate_net_profit` and
is excluded by the low-profit filter. -/
theorem C7_no_path_handling (g : Graph) (ship : Ship) (ts : List Trade) (tr : Trade)
    (s t : ℤ) :
    (shortest_path_length g s t = none ↔
      (g.paths.lookup s = none ∨
        ∃ row, g.paths.lookup s = some row ∧ row.lookup t = none)) ∧
    (tr ∈ ts →
      (shortest_path_length g ship.location tr.from_station = none ∨
        shortest_path_length g tr.from_station tr.to_station = none) →
      (net_profit_update g ship tr).net_profit = none ∧
      net_profit_update g ship tr ∉
        filter_order_matches_low_profit (calculate_net_profit ts g ship)) := by
  constructor
  · unfold shortest_path_length
    cases h : g.paths.lookup s with
    | none => simp [h]
    | some row =>
      dsimp only
      cases h2 : row.lookup t with
      | none => exact iff_of_true rfl (Or.inr ⟨row, rfl, h2⟩)
      | some v =>
        refine iff_of_false (by simp) ?_
        rintro (h' | ⟨row', hr, hn⟩)
        · exact absurd h' (by simp)
        · obtain rfl := Option.some.inj hr
          rw [h2] at hn
          exact absurd hn (by simp)
  · intro _ hbad
    have hupd : (net_profit_update g ship tr).net_profit = none := by
      rcases hbad with h | h
      · cases h2 : shortest_path_length g tr.from_station tr.to_station <;>
          simp [net_profit_update, h, h2]
      · cases h1 : shortest_path_length g ship.location tr.from_station <;>
          simp [net_profit_update, h, h1]
    refine ⟨hupd, ?_⟩
    intro hin
    unfold filter_order_matches_low_profit at hin
    have hpred := (List.mem_filter.1 hin).2
    simp only [hupd] at hpred
    exact Bool.false_ne_true hpred

def gC7 : Graph :=
  { stations := fun _ => none
    solar_systems := fun _ => none
    shortest_path_fn := fun _ _ => none
    edge_risk := fun _ _ => 0
    edge_time := fun _ _ => 0
    paths := [(0, [(1, 5)])] }

theorem C7_witness :
    (net_profit_update gC7 ship0 t0).net_profit = none ∧
    net_profit_update gC7 ship0 t0 ∉
      filter_order_matches_low_profit (calculate_net_profit [t0] gC7 ship0) :=
  (C7_no_path_handling gC7 ship0 [t0] t0 0 1).2 (by decide) (by decide)

/-! ## C9 -/

/-- The gate entry used in the C9 graph: a non-station node of system 500. -/
def gateE : StationData :=
  { solar_system_id := 500, region_id := 1, region_name := "r", item_name := "g"
    solar_system_name := "s", security := 1, is_station := false
    px := 0, py := 0, pz := 0 }

/-- A station entry of system 500 for the C9 graph. -/
def stationE : StationData :=
  { solar_system_id := 500, region_id := 1, region_name := "r", item_name := "st"
    solar_system_name := "s", security := 1, is_station := true
    px := 0, py := 0, pz := 0 }

def gC9 : Graph :=
  { stations := fun i =>
      if i = 11 ∨ i = 12 ∨ i = 13 then some gateE
      else if i = 21 ∨ i = 22 then some stationE
      else none
    solar_systems := fun i =>
      if i = 500 then some { region_id := 1, region_name := "r", item_name := "sys" }
      else none
    shortest_path_fn := fun _ _ => none
    edge_risk := fun _ _ => 0
    edge_time := fun _ _ => 0
    paths := [] }

/-- C9 counterexample: a path of three consecutive known gate-only nodes of
one solar system formats to *two* consecutive steps both labelled with that
system's id — the formatted route has duplicate consecutive entries, and the
gate run is not collapsed into a single coarse step. -/
theorem C9_counterexample :
    (∀ x ∈ [(11 : ℤ), 12, 13], (gC9.stations x).isSome) ∧
    (formatted_route gC9 [11, 12, 13]).map (fun s => s.location_id) = [500, 500] := by
  decide

theorem combine_pairs_eq (g : Graph) (path : List ℤ) :
    combine_pairs g path =
      (path.zip path.tail).flatMap (fun p => pair_contribution g p.1 p.2) := by
  induction path with
  | nil => rfl
  | cons a rest ih =>
    cases rest with
    | nil => rfl
    | cons b rest2 =>
      simp only [combine_pairs, List.tail_cons, List.zip_cons_cons, List.flatMap_cons]
      rw [ih]
      simp [List.tail_cons]

theorem get_location_info_cases (g : Graph) (x : ℤ) (n : ℕ) :
    (∃ step, get_location_info g x n = some step ∧ step.location_id = x ∧
      ((g.stations x).isSome || (g.solar_systems x).isSome) = true) ∨
    (get_location_info g x n = none ∧
      ((g.stations x).isSome || (g.solar_systems x).isSome) = false) := by
  unfold get_location_info
  cases hst : g.stations x with
  | some st => exact Or.inl ⟨_, rfl, rfl, by simp⟩
  | none =>
    cases hsys : g.solar_systems x with
    | some sys => exact Or.inl ⟨_, rfl, rfl, by simp [hsys]⟩
    | none => exact Or.inr ⟨rfl, by simp [hsys]⟩

theorem formatted_ids_aux (g : Graph) :
    ∀ (L : List ℤ) (n : ℕ),
      ((L.enumFrom n).filterMap (fun p => get_location_info g p.2 p.1)).map
        (fun s => s.location_id) =
      L.filter (fun l => (g.stations l).isSome || (g.solar_systems l).isSome)
  | [], _ => rfl
  | x :: L, n => by
    rcases get_location_info_cases g x n with ⟨step, hsome, hloc, hcond⟩ | ⟨hnone, hcond⟩
    · simp [List.enumFrom, List.filterMap_cons, hsome, hcond, hloc,
        formatted_ids_aux g L (n + 1)]
    · simp [List.enumFrom, List.filterMap_cons, hnone, hcond,
        formatted_ids_aux g L (n + 1)]

/-- C9 (amended): for every non-empty path, (1) `combine_warp_gates` emits,
for each adjacent pair of the path in order, the first node itself when it is
a known station, the shared solar-system id when both nodes are known
gate-only nodes of one system, and nothing otherwise, plus the last node when
it is a known station; (2) the formatted route keeps exactly the emitted ids
that resolve to a known station or system, in order; (3) an isolated pair of
same-system gate-only nodes between two stations is collapsed to the single
system id (but runs of three or more gates repeat the system id, so duplicate
consecutive steps can occur). -/
theorem C9_formatted_route_characterization (g : Graph) (path : List ℤ)
    (hne : path ≠ []) :
    (combine_warp_gates g path =
      (path.zip path.tail).flatMap (fun p => pair_contribution g p.1 p.2) ++
        (match g.stations (path.getLast hne) with
         | some st => if st.is_station then [path.getLast hne] else []
         | none => [])) ∧
    ((formatted_route g path).map (fun s => s.location_id) =
      (combine_warp_gates g path).filter
        (fun l => (g.stations l).isSome || (g.solar_systems l).isSome)) ∧
    (∀ (a g1 g2 b : ℤ) (rest : List ℤ) (sta s1 s2 stb : StationData),
      g.stations a = some sta → sta.is_station = true →
      g.stations g1 = some s1 → s1.is_station = false →
      g.stations g2 = some s2 → s2.is_station = false →
      g.stations b = some stb → stb.is_station = true →
      s1.solar_system_id = s2.solar_system_id →
      combine_warp_gates g (a :: g1 :: g2 :: b :: rest) =
        a :: s1.solar_system_id :: combine_warp_gates g (b :: rest)) := by
  refine ⟨?_, ?_, ?_⟩
  · rw [combine_warp_gates, combine_pairs_eq,
      List.getLast?_eq_getLast path hne]
  · rw [formatted_route, List.enum]
    exact formatted_ids_aux g (combine_warp_gates g path) 0
  · intro a g1 g2 b rest sta s1 s2 stb ha hsta hg1 hs1 hg2 hs2 hb hstb hsys
    simp only [combine_warp_gates, combine_pairs, pair_contribution,
      ha, hsta, hg1, hs1, hg2, hs2, hb, hstb, List.getLast?_cons_cons]
    simp [hsys]

unseal Rat.mul Rat.inv Rat.add Rat.sub Rat.ofScientific List.merge List.mergeSort in
theorem C9_witness :
    (combine_warp_gates gC9 [11, 12, 13] =
      (([(11 : ℤ), 12, 13]).zip ([(11 : ℤ), 12, 13]).tail).flatMap
          (fun p => pair_contribution gC9 p.1 p.2) ++
        (match gC9.stations (([(11 : ℤ), 12, 13]).getLast (by decide)) with
         | some st => if st.is_station then [([(11 : ℤ), 12, 13]).getLast (by decide)] else []
         | none => [])) ∧
    ((formatted_route gC9 [11, 12, 13]).map (fun s => s.location_id) =
      (combine_warp_gates gC9 [11, 12, 13]).filter
        (fun l => (gC9.stations l).isSome || (gC9.solar_systems l).isSome)) ∧
    combine_warp_gates gC9 [21, 11, 12, 22] =
      21 :: gateE.solar_system_id :: combine_warp_gates gC9 [22] :=
  ⟨(C9_formatted_route_characterization gC9 [11, 12, 13] (by decide)).1,
   (C9_formatted_route_characterization gC9 [11, 12, 13] (by decide)).2.1,
   (C9_formatted_route_characterization gC9 [11, 12, 13] (by decide)).2.2
     21 11 12 22 [] stationE gateE gateE stationE (by decide) (by decide) (by decide)
     (by decide) (by decide) (by decide) (by decide) (by decide) (by decide)⟩

/-! ## C6 -/

theorem route_go_eq_fold (g : Graph) (ship : Ship) (sorted_trades : List Trade) :
    ∀ (ts : List Trade) (seen : List (ℤ × ℤ × ℤ)) (r : ℚ)
      (br : Option (List RouteStep)) (bi : Option RouteInfo),
      route_go g ship sorted_trades ts seen r br bi =
        fold_best (evals_go g ship sorted_trades ts seen) r br bi
  | [], _, _, _, _ => rfl
  | t :: ts, seen, r, br, bi => by
    simp only [route_go, evals_go]
    split_ifs with hseen
    · exact route_go_eq_fold g ship sorted_trades ts seen r br bi
    · cases h : eval_candidate g ship sorted_trades t with
      | none =>
        exact route_go_eq_fold g ship sorted_trades ts
          ((ship.location, t.from_station, t.to_station) :: seen) r br bi
      | some e =>
        simp only [fold_best]
        split_ifs with hlt
        · exact route_go_eq_fold g ship sorted_trades ts
            ((ship.location, t.from_station, t.to_station) :: seen) e.1
            (some e.2.1) (some e.2.2)
        · exact route_go_eq_fold g ship sorted_trades ts
            ((ship.location, t.from_station, t.to_station) :: seen) r br bi

theorem fold_best_all_le :
    ∀ (E : List (ℚ × List RouteStep × RouteInfo)) (r : ℚ)
      (br : Option (List RouteStep)) (bi : Option RouteInfo),
      (∀ e ∈ E, e.1 ≤ r) → fold_best E r br bi = (br, bi)
  | [], _, _, _, _ => rfl
  | e :: es, r, br, bi, h => by
    simp only [fold_best]
    rw [if_neg (not_lt.2 (h e (List.mem_cons_self _ _)))]
    exact fold_best_all_le es r br bi (fun f hf => h f (List.mem_cons_of_mem _ hf))

theorem fold_best_some :
    ∀ (E : List (ℚ × List RouteStep × RouteInfo)) (r : ℚ)
      (p : List RouteStep) (q : RouteInfo),
      ∃ p' q', fold_best E r (some p) (some q) = (some p', some q')
  | [], _, p, q => ⟨p, q, rfl⟩
  | e :: es, r, p, q => by
    simp only [fold_best]
    split_ifs with hlt
    · exact fold_best_some es e.1 e.2.1 e.2.2
    · exact fold_best_some es r p q

theorem fold_best_none_iff :
    ∀ (E : List (ℚ × List RouteStep × RouteInfo)) (r : ℚ),
      (fold_best E r none none = (none, none) ↔ ∀ e ∈ E, e.1 ≤ r)
  | [], r => by simp [fold_best]
  | e :: es, r => by
    simp only [fold_best]
    split_ifs with hlt
    · constructor
      · intro h
        obtain ⟨p', q', hpq⟩ := fold_best_some es e.1 e.2.1 e.2.2
        rw [hpq] at h
        exact absurd h (by simp)
      · intro h
        exact absurd hlt (not_lt.2 (h e (List.mem_cons_self _ _)))
    · rw [fold_best_none_iff es r]
      constructor
      · intro h f hf
        rcases List.mem_cons.1 hf with rfl | hf2
        · exact not_lt.1 hlt
        · exact h f hf2
      · intro h f hf
        exact h f (List.mem_cons_of_mem _ hf)

theorem fold_best_first_max :
    ∀ (E : List (ℚ × List RouteStep × RouteInfo)) (r : ℚ)
      (br : Option (List RouteStep)) (bi : Option RouteInfo)
      (i : ℕ) (hi : i < E.length),
      r < (E.get ⟨i, hi⟩).1 →
      (∀ (j : ℕ) (hj : j < E.length), j < i → (E.get ⟨j, hj⟩).1 < (E.get ⟨i, hi⟩).1) →
      (∀ (j : ℕ) (hj : j < E.length), (E.get ⟨j, hj⟩).1 ≤ (E.get ⟨i, hi⟩).1) →
      fold_best E r br bi = (some (E.get ⟨i, hi⟩).2.1, some (E.get ⟨i, hi⟩).2.2)
  | [], _, _, _, i, hi, _, _, _ => absurd hi (by simp)
  | e :: es, r, br, bi, i, hi, hr, hfirst, hmax => by
    cases i with
    | zero =>
      simp only [List.get] at hr hmax ⊢
      simp only [fold_best]
      rw [if_pos hr]
      apply fold_best_all_le
      intro f hf
      obtain ⟨⟨j, hj⟩, rfl⟩ := List.mem_iff_get.1 hf
      have := hmax (j + 1) (by simpa using Nat.succ_lt_succ hj)
      simpa using this
    | succ k =>
      have hk : k < es.length := by simpa using hi
      have hget : (e :: es).get ⟨k + 1, hi⟩ = es.get ⟨k, hk⟩ := rfl
      rw [hget] at hr hfirst hmax
      have h0 : e.1 < (es.get ⟨k, hk⟩).1 := by
        have := hfirst 0 (by simp) (Nat.succ_pos k)
        simpa using this
      have hfirst' : ∀ (j : ℕ) (hj : j < es.length), j < k →
          (es.get ⟨j, hj⟩).1 < (es.get ⟨k, hk⟩).1 := by
        intro j hj hjk
        have := hfirst (j + 1) (by simpa using Nat.succ_lt_succ hj) (Nat.succ_lt_succ hjk)
        simpa using this
      have hmax' : ∀ (j : ℕ) (hj : j < es.length),
          (es.get ⟨j, hj⟩).1 ≤ (es.get ⟨k, hk⟩).1 := by
        intro j hj
        have := hmax (j + 1) (by simpa using Nat.succ_lt_succ hj)
        simpa using this
      simp only [fold_best]
      split_ifs with hlt
      · exact fold_best_first_max es e.1 (some e.2.1) (some e.2.2) k hk h0 hfirst' hmax'
      · exact fold_best_first_max es r br bi k hk hr hfirst' hmax'

/-- Every evaluated candidate's recorded `profit_rate` equals its rate. -/
theorem eval_candidate_rate (g : Graph) (ship : Ship) (S : List Trade) (t : Trade)
    (e : ℚ × List RouteStep × RouteInfo)
    (h : eval_candidate g ship S t = some e) : e.2.2.profit_rate = e.1 := by
  simp only [eval_candidate] at h
  split_ifs at h
  split at h
  · split_ifs at h
    obtain rfl := Option.some.inj h
    rfl
  · exact absurd h (by simp)

theorem mem_evals_go_rate (g : Graph) (ship : Ship) (S : List Trade) :
    ∀ (ts : List Trade) (seen : List (ℤ × ℤ × ℤ))
      (e : ℚ × List RouteStep × RouteInfo),
      e ∈ evals_go g ship S ts seen → e.2.2.profit_rate = e.1
  | [], _, e, he => absurd he (by simp [evals_go])
  | t :: ts, seen, e, he => by
    simp only [evals_go] at he
    split_ifs at he with hseen
    · exact mem_evals_go_rate g ship S ts seen e he
    · revert he
      cases h : eval_candidate g ship S t with
      | none =>
        intro he
        exact mem_evals_go_rate g ship S ts
          ((ship.location, t.from_station, t.to_station) :: seen) e he
      | some f =>
        intro he
        rcases List.mem_cons.1 he with rfl | he2
        · exact eval_candidate_rate g ship S t e h
        · exact mem_evals_go_rate g ship S ts
            ((ship.location, t.from_station, t.to_station) :: seen) e he2

/-- C6: `route` tracks the best skeleton by strict improvement starting from
rate 0, so it returns `(None, None)` iff no evaluated skeleton has a strictly
positive profit rate, and otherwise it returns the payload of the *first*
evaluated skeleton attaining the maximum profit rate (an equal rate never
replaces an earlier route); the recorded `profit_rate` of every evaluated
candidate equals its tracked rate. -/
theorem C6_route_first_argmax (trades : List Trade) (g : Graph) (ship : Ship) :
    (route trades g ship = (none, none) ↔ ∀ e ∈ evals trades g ship, e.1 ≤ 0) ∧
    (∀ (i : ℕ) (hi : i < (evals trades g ship).length),
      0 < ((evals trades g ship).get ⟨i, hi⟩).1 →
      (∀ (j : ℕ) (hj : j < (evals trades g ship).length), j < i →
        ((evals trades g ship).get ⟨j, hj⟩).1 < ((evals trades g ship).get ⟨i, hi⟩).1) →
      (∀ (j : ℕ) (hj : j < (evals trades g ship).length),
        ((evals trades g ship).get ⟨j, hj⟩).1 ≤ ((evals trades g ship).get ⟨i, hi⟩).1) →
      route trades g ship =
        (some ((evals trades g ship).get ⟨i, hi⟩).2.1,
         some ((evals trades g ship).get ⟨i, hi⟩).2.2)) ∧
    (∀ e ∈ evals trades g ship, e.2.2.profit_rate = e.1) := by
  have hroute : route trades g ship = fold_best (evals trades g ship) 0 none none :=
    route_go_eq_fold g ship _ _ [] 0 none none
  refine ⟨?_, ?_, ?_⟩
  · rw [hroute]
    exact fold_best_none_iff _ 0
  · intro i hi h0 hfirst hmax
    rw [hroute]
    exact fold_best_first_max _ 0 none none i hi h0 hfirst hmax
  · intro e he
    exact mem_evals_go_rate g ship _ _ [] e he

def stW (sys : ℤ) : StationData :=
  { solar_system_id := sys, region_id := 1, region_name := "r", item_name := "st"
    solar_system_name := "s", security := 1, is_station := true
    px := 0, py := 0, pz := 0 }

def gW : Graph :=
  { stations := fun i =>
      if i = 0 then some (stW 900)
      else if i = 1 then some (stW 901)
      else if i = 2 then some (stW 902)
      else none
    solar_systems := fun _ => none
    shortest_path_fn := fun a b =>
      if a = 0 ∧ b = 1 then some [0, 1]
      else if a = 1 ∧ b = 2 then some [1, 2]
      else none
    edge_risk := fun _ _ => 0
    edge_time := fun _ _ => 10
    paths := [] }

unseal Rat.mul Rat.inv Rat.add Rat.sub Rat.ofScientific List.merge List.mergeSort in
theorem C6_witness :
    route [t0] gW ship0 =
      (some (((evals [t0] gW ship0).get ⟨0, by decide⟩).2.1),
       some (((evals [t0] gW ship0).get ⟨0, by decide⟩).2.2)) :=
  (C6_route_first_argmax [t0] gW ship0).2.1 0 (by decide) (by decide)
    (fun j _ hj0 => absurd hj0 (Nat.not_lt_zero j))
    (by decide)

/-! ## C4 -/

def stA : StationData :=
  { solar_system_id := 1, region_id := 1, region_name := "r", item_name := "a"
    solar_system_name := "s", security := 1, is_station := true
    px := 0, py := 0, pz := 0 }

def stB : StationData := { stA with item_name := "b", px := 1 }

def stC : StationData := { stA with item_name := "c", px := 600000000000 }

theorem warp_distance_stB : warp_distance stA stB = 1 := by
  unfold warp_distance
  norm_num [stA, stB]

theorem log_four_gt_one : 1 < Real.log 4 := by
  rw [Real.lt_log_iff_exp_lt (by norm_num)]
  exact Real.exp_one_lt_d9.trans_le (by norm_num)

theorem log_four_hundred_gt_one : 1 < Real.log 400 := by
  rw [Real.lt_log_iff_exp_lt (by norm_num)]
  exact Real.exp_one_lt_d9.trans_le (by norm_num)

theorem C4_core : calculate_time stA stB 1 200 < -1 := by
  rw [calculate_time, if_neg (by norm_num [stA, stB]), warp_distance_stB]
  simp only [calculate_time_in_warp, AU_IN_M]
  norm_num [min_def]
  have h4 : Real.log (1 / 4 : ℝ) = -Real.log 4 := by
    rw [one_div, Real.log_inv]
  have h400 : Real.log (1 / 400 : ℝ) = -Real.log 400 := by
    rw [one_div, Real.log_inv]
  nlinarith [log_four_gt_one, log_four_hundred_gt_one, h4, h400]

/-- C4 counterexample: an intra-system edge between two stations one metre
apart (security 1, zero danger bonus, unit costs — all within the claim's
hypotheses) gets a *negative* travel time from the warp physics (the `log` of
a sub-unity speed ratio), and a negative weight. -/
theorem C4_counterexample :
    stA.security ≤ 1 ∧ stB.security ≤ 1 ∧
    calculate_time stA stB 1 200 < 0 ∧
    edge_weight (calculate_time stA stB 1 200)
      (calculate_risk stB (fun _ => 0)) 1 1 < 0 := by
  have hcore := C4_core
  refine ⟨by norm_num [stA], by norm_num [stB, stA], by linarith, ?_⟩
  have hrisk : calculate_risk stB (fun _ => 0) = 4 / 100000 := by
    norm_num [calculate_risk, stB, stA]
  rw [edge_weight, hrisk]
  push_cast
  linarith

/-- C4 (amended): risk is non-negative for security at most 1 and
non-negative danger bonuses; inter-system time is the constant 9; and
intra-system time is non-negative provided the warp distance is at least the
minimum acceleration-plus-deceleration distance and the dropout speed does
not exceed the maximal warp speed in m/s; the edge weight is then
non-negative for non-negative cost factors. -/
theorem C4_weight_nonneg (from_station to_station : StationData) (w sw : ℝ)
    (gank : String → ℚ) (pc rc : ℝ)
    (hw : 0 < w) (hsw : 0 < sw)
    (hdrop : min (sw / 2) 100 ≤ w * AU_IN_M)
    (hdist : AU_IN_M + w * AU_IN_M / min (w / 3) 2 ≤ warp_distance from_station to_station)
    (hsec : to_station.security ≤ 1)
    (hg : ∀ s2, 0 ≤ gank s2)
    (hpc : 0 ≤ pc) (hrc : 0 ≤ rc) :
    0 ≤ calculate_time from_station to_station w sw ∧
    0 ≤ calculate_risk to_station gank ∧
    0 ≤ edge_weight (calculate_time from_station to_station w sw)
      (calculate_risk to_station gank) pc rc := by
  have hAU : (1 : ℝ) ≤ AU_IN_M := by norm_num [AU_IN_M]
  have hAUpos : (0 : ℝ) < AU_IN_M := by norm_num [AU_IN_M]
  have hkd : (0 : ℝ) < min (w / 3) 2 := lt_min (by positivity) (by norm_num)
  have hdo : (0 : ℝ) < min (sw / 2) 100 := lt_min (by positivity) (by norm_num)
  have hms : (0 : ℝ) < w * AU_IN_M := by positivity
  have htime : 0 ≤ calculate_time from_station to_station w sw := by
    rw [calculate_time]
    split_ifs with hsys
    · norm_num
    · have htw : 0 ≤ calculate_time_in_warp (warp_distance from_station to_station) w sw := by
        simp only [calculate_time_in_warp]
        rw [if_neg (not_lt.2 hdist), if_neg (not_lt.2 hdist)]
        have hcruise : 0 ≤ (warp_distance from_station to_station -
            (AU_IN_M + w * AU_IN_M / min (w / 3) 2)) / (w * AU_IN_M) :=
          div_nonneg (sub_nonneg.2 hdist) hms.le
        have haccel : 0 ≤ Real.log (w * AU_IN_M / w) / w := by
          apply div_nonneg _ hw.le
          apply Real.log_nonneg
          rw [mul_div_cancel_left₀ _ (ne_of_gt hw)]
          exact hAU
        have hdecel : 0 ≤ Real.log (w * AU_IN_M / min (sw / 2) 100) / min (w / 3) 2 := by
          apply div_nonneg _ hkd.le
          exact Real.log_nonneg ((one_le_div hdo).2 hdrop)
        linarith
      linarith
  have hrisk : 0 ≤ calculate_risk to_station gank := by
    simp only [calculate_risk]
    have h1 : (0 : ℚ) ≤ (1 - to_station.security) * (4 / 10000) :=
      mul_nonneg (by linarith) (by norm_num)
    have h2 := hg to_station.solar_system_name
    split_ifs <;> linarith
  refine ⟨htime, hrisk, ?_⟩
  rw [edge_weight]
  have hcast : (0 : ℝ) ≤ ((calculate_risk to_station gank : ℚ) : ℝ) := by
    exact_mod_cast hrisk
  exact add_nonneg (mul_nonneg htime hpc) (mul_nonneg hrc hcast)

theorem warp_distance_stC : warp_distance stA stC = 600000000000 := by
  unfold warp_distance
  have h : ((0 : ℚ) - 600000000000 : ℚ) = -600000000000 := by norm_num
  norm_num [stA, stC]
  rw [show (360000000000000000000000 : ℝ) = 600000000000 ^ 2 by norm_num]
  exact Real.sqrt_sq (by norm_num)

theorem C4_witness :
    0 ≤ calculate_time stA stC 1 200 ∧
    0 ≤ calculate_risk stC (fun _ => 0) ∧
    0 ≤ edge_weight (calculate_time stA stC 1 200)
      (calculate_risk stC (fun _ => 0)) 1 1 :=
  C4_weight_nonneg stA stC 1 200 (fun _ => 0) 1 1
    (by norm_num) (by norm_num)
    (by norm_num [AU_IN_M, min_def])
    (by
      rw [warp_distance_stC]
      norm_num [AU_IN_M, min_def])
    (by norm_num [stC, stA])
    (fun _ => le_refl 0)
    (by norm_num) (by norm_num)

end Haul
